import Mathlib

/-!
Verification development for the keyword-crawling pipeline:
relevance classification client (processor/analyzers/ark_analyzer.py),
relevance cache and merge (processor/relevance_analyzer/analyzer.py),
the note-detail enrichment loop (learn/attraction_analyzer.py,
learn/get_note_detail_runner.py) and the pipeline orchestrator
(learn/attraction_analyzer.py).  Python dataframes are modelled as
lists of rows, machine floats as rationals, fallible calls as Option
values, and the external services as oracle functions supplied to the
embedded code.
-/

/-! ## Classification client (ark_analyzer.py) -/

/-- One classification result: relevance score and explanation
(ark_analyzer.py result dicts with keys relevance_score and
explanation).  Scores are modelled as rationals in place of Python
floats. -/
structure ClassResult where
  score : Rat
  explanation : String
deriving DecidableEq

/-- The all-zero result dict used on empty input, exhausted retries and
padding (ark_analyzer.py lines 91, 148, 235, 271, 275). -/
def zeroResult : ClassResult := ⟨0, ""⟩

/-- ArkAnalyzer.should_retry_response: retry only when every result has
score 0 and every explanation is empty (lines 153-167). -/
def should_retry_response (results : List ClassResult) : Bool :=
  results.all (fun r => r.score == 0) && results.all (fun r => r.explanation == "")

/-- The length normalisation at the end of ArkAnalyzer.parse_response
(lines 268-280): an empty parse yields all zeros, otherwise the parsed
list is padded with zeros and truncated to the expected count.  The
JSON and regex extraction that produces the raw list is abstracted as
the argument raw. -/
def parse_response (raw : List ClassResult) (expected : Nat) : List ClassResult :=
  if raw.isEmpty then List.replicate expected zeroResult
  else (raw ++ List.replicate (expected - raw.length) zeroResult).take expected

/-- The retry loop of ArkAnalyzer.analyze_batch (lines 105-151).  The
oracle maps the attempt number to the service outcome: none models an
exception, some raw models a response whose extracted result list is
raw.  Returns the result (none when the for loop is exhausted without
returning, the implicit None of Python when max_retries is 0) and the
number of service calls performed.  The second recursion argument is
the number of attempts remaining. -/
def attemptLoop (oracle : Nat → Option (List ClassResult)) (expected : Nat) :
    Nat → Nat → Option (List ClassResult) × Nat
  | _, 0 => (none, 0)
  | attempt, remaining + 1 =>
    match oracle attempt with
    | none =>
      if remaining = 0 then (some (List.replicate expected zeroResult), 1)
      else
        let r := attemptLoop oracle expected (attempt + 1) remaining
        (r.1, r.2 + 1)
    | some raw =>
      let results := parse_response raw expected
      if should_retry_response results ∧ remaining ≠ 0 then
        let r := attemptLoop oracle expected (attempt + 1) remaining
        (r.1, r.2 + 1)
      else (some results, 1)

/-- ArkAnalyzer.analyze_batch (lines 76-151): empty texts or empty
keyword short-circuits to all-zero results with no service call;
otherwise the retry loop runs for max_retries attempts.  Returns the
result list (none only when max_retries is 0) and the number of calls
made to the external service. -/
def analyze_batch (maxRetries : Nat) (oracle : Nat → Option (List ClassResult))
    (texts : List String) (keyword : String) : Option (List ClassResult) × Nat :=
  if texts.isEmpty || keyword == "" then
    (some (List.replicate texts.length zeroResult), 0)
  else attemptLoop oracle texts.length 0 maxRetries

/-- texts[i:i+k] slicing loop of ArkAnalyzer.analyze_contents line 181,
with the list length as fuel for the recursion. -/
def chunkGo (k : Nat) : Nat → List String → List (List String)
  | 0, _ => []
  | _, [] => []
  | fuel + 1, x :: xs => ((x :: xs).take k) :: chunkGo k fuel ((x :: xs).drop k)

/-- batches = [texts[i:i+batch_size] for i in range(0, len(texts),
batch_size)] (ark_analyzer.py line 181), meaningful for batch_size at
least 1 (range raises for step 0 in Python). -/
def chunkList (xs : List String) (k : Nat) : List (List String) :=
  chunkGo k xs.length xs

/-- Turn a list of optional per-batch results into an optional list:
none models the TypeError Python would raise extending the result list
with a None batch result. -/
def sequenceResults : List (Option (List ClassResult)) → Option (List (List ClassResult))
  | [] => some []
  | none :: _ => none
  | some l :: rs =>
    match sequenceResults rs with
    | none => none
    | some ls => some (l :: ls)

/-- The task list built at ark_analyzer.py line 192, one analyze_batch
task per chunk in submission order; the first argument is the index of
the next batch, used to address the per-batch oracle. -/
def batchTasks (maxRetries : Nat) (oracle : Nat → Nat → Option (List ClassResult))
    (keyword : String) : Nat → List (List String) → List (Option (List ClassResult))
  | _, [] => []
  | i, b :: bs =>
    (analyze_batch maxRetries (oracle i) b keyword).1
      :: batchTasks maxRetries oracle keyword (i + 1) bs

/-- ArkAnalyzer.analyze_contents (lines 169-204): split texts into
consecutive chunks of batch_size, run analyze_batch on every chunk
(asyncio.gather returns the per-task results in task submission order
regardless of completion order), concatenate the per-batch results in
submission order and truncate to len(texts).  The oracle gives, per
batch index, the per-attempt service outcomes for that batch. -/
def analyze_contents (maxRetries batchSize : Nat)
    (oracle : Nat → Nat → Option (List ClassResult))
    (texts : List String) (keyword : String) : Option (List ClassResult) :=
  let batchResults := batchTasks maxRetries oracle keyword 0 (chunkList texts batchSize)
  match sequenceResults batchResults with
  | none => none
  | some ls => some (ls.flatten.take texts.length)

/-! ## Relevance cache and merge (relevance_analyzer/analyzer.py) -/

/-- One row of a classified dataset: its identifier (the UID column)
and its relevance score, abstracting the remaining columns.  When the
containing frame lacks the UID column the uid field carries no
meaning. -/
structure CRow where
  uid : Nat
  score : Rat
deriving DecidableEq

/-- A dataframe: whether the UID column is present, and the rows. -/
structure DFrame where
  hasUID : Bool
  rows : List CRow
deriving DecidableEq

/-- The UID column of a list of rows. -/
def uids (l : List CRow) : List Nat := l.map (fun r => r.uid)

/-- pandas drop_duplicates(subset=[UID], keep=last): keep a row exactly
when no later row carries the same identifier. -/
def dropDupKeepLast : List CRow → List CRow
  | [] => []
  | r :: rs =>
    if rs.any (fun x => x.uid == r.uid) then dropDupKeepLast rs
    else r :: dropDupKeepLast rs

/-- RelevanceAnalyzer.merge_with_cache (lines 165-183): when either
frame lacks the UID column return the new frame unchanged; otherwise
concatenate cached rows then new rows and deduplicate by UID keeping
the last occurrence. -/
def merge_with_cache (new_df cached_df : DFrame) : DFrame :=
  if !new_df.hasUID || !cached_df.hasUID then new_df
  else ⟨true, dropDupKeepLast (cached_df.rows ++ new_df.rows)⟩

/-- The first row with the given identifier. -/
def findRow (l : List CRow) (u : Nat) : Option CRow :=
  l.find? (fun x => x.uid == u)

/-- The last row with the given identifier. -/
def findRowLast : List CRow → Nat → Option CRow
  | [], _ => none
  | r :: rs, u =>
    match findRowLast rs u with
    | some x => some x
    | none => if r.uid == u then some r else none

/-- Attaching classification results to the rows sent for analysis
(analyze_excel lines 340-342); classification never changes the
identifier, only the score columns. -/
def classifyRows (oracle : CRow → Rat) (l : List CRow) : List CRow :=
  l.map (fun r => { r with score := oracle r })

/-- Outcome of RelevanceAnalyzer.analyze_excel: either the cached frame
is returned verbatim, or some rows were sent for classification and a
final frame was persisted. -/
inductive ExcelOut where
  | fromCache (d : DFrame)
  | analyzed (sent : List CRow) (final : DFrame)
deriving DecidableEq

/-- The cache path of RelevanceAnalyzer.analyze_excel (lines 286-349):
when a cached frame exists and both frames carry UID, only rows whose
identifier is absent from the cache are classified (returning the cache
verbatim when none remain) and the result is merged with the cache;
when a UID column is missing the whole raw frame is re-classified and
the merge degrades to the new frame only; with no cache the whole frame
is classified. -/
def analyze_excel_model (oracle : CRow → Rat) (df : DFrame)
    (cachedOpt : Option DFrame) : ExcelOut :=
  match cachedOpt with
  | some cached =>
    if df.hasUID && cached.hasUID then
      let newRows := df.rows.filter (fun r => !((uids cached.rows).contains r.uid))
      if newRows.isEmpty then .fromCache cached
      else .analyzed newRows (merge_with_cache ⟨df.hasUID, classifyRows oracle newRows⟩ cached)
    else .analyzed df.rows (merge_with_cache ⟨df.hasUID, classifyRows oracle df.rows⟩ cached)
  | none => .analyzed df.rows ⟨df.hasUID, classifyRows oracle df.rows⟩

/-! ## Pipeline orchestrator (attraction_analyzer.analyze_attraction) -/

/-- The result record built by AttractionAnalyzer.analyze_attraction
(lines 521-531). -/
structure AnalyzeResult where
  searchFile : Option String
  analyzedFile : Option String
  detailFile : Option String
  success : Bool
  noteCount : Nat
  relevantCount : Nat
  processedCount : Nat
deriving DecidableEq

/-- The initial results dict (lines 521-531). -/
def initResults : AnalyzeResult := ⟨none, none, none, false, 0, 0, 0⟩

/-- The body of the outer try of analyze_attraction (lines 533-569).
searchRes models search_attraction_notes: none is an exception escaping
the stage (it has no handler of its own), some of a path is a normal
return where the empty string means no notes were found.  relRes and
detailRes model analyze_relevance and get_note_details, which catch
their own exceptions and return None on failure.  counts and
detailCount model the guarded spreadsheet reads of the count fields.
An error value is an exception reaching the outer handler together
with the results record at that point. -/
def analyze_attraction_body (searchRes : Option String)
    (relRes : String → Option String) (counts : String → Option (Nat × Nat))
    (detailRes : String → Option String) (detailCount : String → Option Nat) :
    Except AnalyzeResult AnalyzeResult :=
  match searchRes with
  | none => .error initResults
  | some sf =>
    if sf = "" then .ok initResults
    else
      let r1 := { initResults with searchFile := some sf }
      match relRes sf with
      | none => .ok r1
      | some af =>
        let r2 := { r1 with analyzedFile := some af }
        let r3 := match counts af with
          | some (n, k) => { r2 with noteCount := n, relevantCount := k }
          | none => r2
        match detailRes af with
        | none => .ok { r3 with success := true }
        | some dfile =>
          let r4 := { r3 with detailFile := some dfile }
          let r5 := match detailCount dfile with
            | some p => { r4 with processedCount := p }
            | none => r4
          .ok { r5 with success := true }

/-- AttractionAnalyzer.analyze_attraction (lines 510-573): the outer
except Exception handler returns the results record accumulated so far,
so the caller always receives a plain record. -/
def analyze_attraction (searchRes : Option String)
    (relRes : String → Option String) (counts : String → Option (Nat × Nat))
    (detailRes : String → Option String) (detailCount : String → Option Nat) :
    AnalyzeResult :=
  match analyze_attraction_body searchRes relRes counts detailRes detailCount with
  | .ok r => r
  | .error r => r

/-! ## Detail enrichment loop (attraction_analyzer.get_note_details,
lines 252-508, and get_note_detail_runner.save_to_excel) -/

/-- A record appended to the pending batch and persisted to the detail
store: identifier, crawl status and the parseable published-at value of
the record, abstracting the remaining enrichment columns (the note_info
dicts of get_note_details; the UID column is backfilled from the source
row at lines 304-306 and 401-403, so stored records carry it). -/
structure DetailRecord where
  uid : Nat
  status : String
  time : Option Int
deriving DecidableEq

/-- One row of the sorted relevant dataframe together with the external
outcomes its processing will observe.  label is the pandas index label
the row kept through sorting; hasKeys is presence of the UID and
xsec_token columns (line 289); rowTime is the published-at value of the
row when present and parseable as int, none otherwise (lines 362-364);
fetch models get_note_detail: none is a falsy result, some t a detail
dict whose formatted published-at parses to t when t is some (lines
394-415); formatFails models an exception inside the formatting block
caught at line 460; sleepFatal models an exception raised at the
asyncio.sleep call outside the per-item handler (line 471), which only
the outer handler at line 506 catches. -/
structure ItemStep where
  label : Int
  hasKeys : Bool
  uid : Nat
  rowTime : Option Int
  fetch : Option (Option Int)
  formatFails : Bool
  sleepFatal : Bool
deriving DecidableEq

/-- Per-item processing summary: the updates field counts how many
times the consecutive-stale counter was assigned while the item was
processed (an increment or a reset to zero); slept records whether the
inter-item delay at line 471 ran after the item; appended is the crawl
status of the record the item contributed to the pending batch, if
any. -/
structure ItemSummary where
  uid : Nat
  label : Int
  fromCache : Bool
  updates : Nat
  slept : Bool
  appended : Option String
deriving DecidableEq

/-- Loop state: the consecutive_old_posts counter (line 253), the
pending batch (line 277), the rows of the persisted detail store file,
the list of every record appended to a batch so far, and the crawl
status cells assigned on the relevant dataframe. -/
structure DetState where
  cnt : Nat
  batch : List DetailRecord
  store : List DetailRecord
  appended : List DetailRecord
  unnecessary : List Int
  failed : List Int
deriving DecidableEq

/-- Result of one time check. -/
structure TimeCheckOut where
  state : DetState
  fired : Bool
  updates : Nat
deriving DecidableEq

/-- Loop control after one item: proceed to the next row, break out of
the for loop, or abort to the outer exception handler. -/
inductive LoopCtl where
  | next
  | brk
  | abort
deriving DecidableEq

/-- The published-at check repeated at lines 314-339 (cached records),
361-386 (input row before the fetch) and 412-440 (fetched detail): a
missing or unparseable value leaves the counter untouched; a value
before the cutoff increments consecutive_old_posts and, when the
counter reaches 2, assigns crawl status unnecessary to every row of the
dataframe whose index label exceeds the current label
(df_relevant.index > index, lines 329-331/376-378/430-432) and fires
the early stop; a value at or past the cutoff resets the counter. -/
def timeCheck (cutoff : Int) (allLabels : List Int) (label : Int)
    (t : Option Int) (s : DetState) : TimeCheckOut :=
  match t with
  | none => ⟨s, false, 0⟩
  | some tv =>
    if tv < cutoff then
      if 2 ≤ s.cnt + 1 then
        ⟨{ s with
             cnt := s.cnt + 1
             unnecessary := allLabels.filter (fun l => label < l) }, true, 1⟩
      else ⟨{ s with cnt := s.cnt + 1 }, false, 1⟩
    else ⟨{ s with cnt := 0 }, false, 1⟩

/-- NoteDetailRunner.save_to_excel (get_note_detail_runner.py lines
148-166): the written file holds the existing rows followed by the
batch rows, with no deduplication. -/
def save_to_excel (data existingDf : List DetailRecord) : List DetailRecord :=
  existingDf ++ data

/-- The incremental flush at lines 342-357 and 442-458: once the
pending batch holds batch_size = 5 records, re-read the store file,
append the batch to it and clear the batch. -/
def flushIfFull (s : DetState) : DetState :=
  if 5 ≤ s.batch.length then { s with store := save_to_excel s.batch s.store, batch := [] }
  else s

/-- Append a record to the pending batch (and remember it in the
appended trace). -/
def appendRecord (s : DetState) (r : DetailRecord) : DetState :=
  { s with batch := s.batch ++ [r], appended := s.appended ++ [r] }

/-- The existing_details dict built from the persisted detail file at
lines 262-274, keyed by UID; the value retained here is the stored
published-at field of the record. -/
def lookupExisting (existing : List (Nat × Option Int)) (u : Nat) : Option (Option Int) :=
  (existing.find? (fun p => p.1 == u)).map (fun p => p.2)

/-- The index existing_details derives from the rows of the store
file. -/
def detailsIndex (store0 : List DetailRecord) : List (Nat × Option Int) :=
  store0.map (fun r => (r.uid, r.time))

/-- The body of the for loop of get_note_details for one row (lines
286-471).  Rows missing UID or xsec_token are skipped with continue
(line 291).  A cache hit appends the stored record with status cached,
runs the time check on the stored published-at, flushes a full batch
and continues without the inter-item delay (continue at line 359).  A
cache miss first runs the time check on the published-at of the input
row and may fire the early stop before any fetch; otherwise a falsy
fetch result marks the row failed, a formatting exception contributes
nothing, and a formatted detail is appended with status success and its
published-at is checked; the delay at line 471 then runs, and an
exception there aborts to the outer handler. -/
def stepItem (existing : List (Nat × Option Int)) (cutoff : Int) (allLabels : List Int)
    (it : ItemStep) (s : DetState) : DetState × Option ItemSummary × LoopCtl :=
  if it.hasKeys = false then ⟨s, none, .next⟩
  else
    match lookupExisting existing it.uid with
    | some storedTime =>
      let s1 := appendRecord s ⟨it.uid, "cached", storedTime⟩
      let tc := timeCheck cutoff allLabels it.label storedTime s1
      if tc.fired then
        ⟨tc.state, some ⟨it.uid, it.label, true, tc.updates, false, some "cached"⟩, .brk⟩
      else
        ⟨flushIfFull tc.state, some ⟨it.uid, it.label, true, tc.updates, false, some "cached"⟩, .next⟩
    | none =>
      let tc1 := timeCheck cutoff allLabels it.label it.rowTime s
      if tc1.fired then
        ⟨tc1.state, some ⟨it.uid, it.label, false, tc1.updates, false, none⟩, .brk⟩
      else
        match it.fetch with
        | none =>
          let s2 := { tc1.state with failed := tc1.state.failed ++ [it.label] }
          if it.sleepFatal then
            ⟨s2, some ⟨it.uid, it.label, false, tc1.updates, false, none⟩, .abort⟩
          else ⟨s2, some ⟨it.uid, it.label, false, tc1.updates, true, none⟩, .next⟩
        | some detTime =>
          if it.formatFails then
            if it.sleepFatal then
              ⟨tc1.state, some ⟨it.uid, it.label, false, tc1.updates, false, none⟩, .abort⟩
            else ⟨tc1.state, some ⟨it.uid, it.label, false, tc1.updates, true, none⟩, .next⟩
          else
            let s2 := appendRecord tc1.state ⟨it.uid, "success", detTime⟩
            let tc2 := timeCheck cutoff allLabels it.label detTime s2
            if tc2.fired then
              ⟨tc2.state,
               some ⟨it.uid, it.label, false, tc1.updates + tc2.updates, false, some "success"⟩, .brk⟩
            else
              let s3 := flushIfFull tc2.state
              if it.sleepFatal then
                ⟨s3, some ⟨it.uid, it.label, false, tc1.updates + tc2.updates, false, some "success"⟩,
                 .abort⟩
              else
                ⟨s3, some ⟨it.uid, it.label, false, tc1.updates + tc2.updates, true, some "success"⟩,
                 .next⟩

/-- Final outcome of the loop: the persisted store rows, the pending
records lost when the outer handler swallowed a fatal exception,
the trace of every record appended to a batch, the crawl status
assignments, the per-item summaries, and whether the run aborted via
the outer handler. -/
structure LoopResult where
  store : List DetailRecord
  batchLost : List DetailRecord
  appended : List DetailRecord
  unnecessary : List Int
  failed : List Int
  summaries : List ItemSummary
  aborted : Bool
deriving DecidableEq

/-- The for loop of get_note_details followed by the final flush at
lines 473-488: a break still reaches the final flush, while an abort
returns from the outer handler (lines 506-508) without flushing. -/
def runLoopAux (existing : List (Nat × Option Int)) (cutoff : Int) (allLabels : List Int) :
    List ItemStep → DetState → List ItemSummary → LoopResult
  | [], s, acc =>
    ⟨save_to_excel s.batch s.store, [], s.appended, s.unnecessary, s.failed, acc, false⟩
  | it :: rest, s, acc =>
    let so := stepItem existing cutoff allLabels it s
    match so.2.2 with
    | .next => runLoopAux existing cutoff allLabels rest so.1 (acc ++ so.2.1.toList)
    | .brk =>
      ⟨save_to_excel so.1.batch so.1.store, [], so.1.appended, so.1.unnecessary, so.1.failed,
       acc ++ so.2.1.toList, false⟩
    | .abort =>
      ⟨so.1.store, so.1.batch, so.1.appended, so.1.unnecessary, so.1.failed,
       acc ++ so.2.1.toList, true⟩

/-- The initial loop state over a given store file. -/
def initState (store0 : List DetailRecord) : DetState := ⟨0, [], store0, [], [], []⟩

/-- The detail enrichment loop of get_note_details from line 252 on,
over the already sorted relevant rows: existing is the index built from
the detail file, store0 its rows, and items the rows of df_relevant in
iteration order. -/
def runDetailLoop (existing : List (Nat × Option Int)) (cutoff : Int)
    (store0 : List DetailRecord) (items : List ItemStep) : LoopResult :=
  runLoopAux existing cutoff (items.map (fun it => it.label)) items (initState store0) []

/-! ## Helper lemmas: classification client -/

theorem parse_response_length (raw : List ClassResult) (expected : Nat) :
    (parse_response raw expected).length = expected := by
  unfold parse_response
  split
  · simp
  · simp only [List.length_take, List.length_append, List.length_replicate]
    omega

theorem attemptLoop_some (oracle : Nat → Option (List ClassResult)) (expected : Nat) :
    ∀ remaining attempt, 1 ≤ remaining →
      ∃ l, (attemptLoop oracle expected attempt remaining).1 = some l ∧ l.length = expected := by
  intro remaining
  induction remaining with
  | zero => intro attempt h; omega
  | succ n ih =>
    intro attempt _
    cases h0 : oracle attempt with
    | none =>
      by_cases hn : n = 0
      · subst hn
        exact ⟨List.replicate expected zeroResult, by simp [attemptLoop, h0], by simp⟩
      · obtain ⟨l, hl, hlen⟩ := ih (attempt + 1) (by omega)
        exact ⟨l, by simp [attemptLoop, h0, hn, hl], hlen⟩
    | some raw =>
      by_cases hr : should_retry_response (parse_response raw expected) ∧ n ≠ 0
      · obtain ⟨l, hl, hlen⟩ := ih (attempt + 1) (by omega)
        exact ⟨l, by simp [attemptLoop, h0, hr, hl], hlen⟩
      · exact ⟨parse_response raw expected, by simp [attemptLoop, h0, hr],
          parse_response_length raw expected⟩

theorem analyze_batch_some (maxRetries : Nat) (oracle : Nat → Option (List ClassResult))
    (texts : List String) (keyword : String) (h : 1 ≤ maxRetries) :
    ∃ l, (analyze_batch maxRetries oracle texts keyword).1 = some l
      ∧ l.length = texts.length := by
  unfold analyze_batch
  split
  · exact ⟨List.replicate texts.length zeroResult, by simp, by simp⟩
  · exact attemptLoop_some oracle texts.length maxRetries 0 h

theorem chunkGo_flatten (k : Nat) (hk : 1 ≤ k) :
    ∀ fuel (xs : List String), xs.length ≤ fuel → (chunkGo k fuel xs).flatten = xs := by
  intro fuel
  induction fuel with
  | zero =>
    intro xs hx
    have : xs = [] := List.eq_nil_of_length_eq_zero (by omega)
    subst this
    rfl
  | succ f ih =>
    intro xs hx
    cases xs with
    | nil => rfl
    | cons x t =>
      simp only [chunkGo, List.flatten_cons]
      rw [ih ((x :: t).drop k) (by
        simp only [List.length_drop, List.length_cons]
        simp only [List.length_cons] at hx
        omega)]
      exact List.take_append_drop k (x :: t)

theorem chunkList_flatten (xs : List String) (k : Nat) (hk : 1 ≤ k) :
    (chunkList xs k).flatten = xs :=
  chunkGo_flatten k hk xs.length xs (Nat.le_refl _)

theorem batchTasks_sequence (maxRetries : Nat) (oracle : Nat → Nat → Option (List ClassResult))
    (keyword : String) (h : 1 ≤ maxRetries) :
    ∀ (bs : List (List String)) (i : Nat),
      sequenceResults (batchTasks maxRetries oracle keyword i bs)
        = some ((batchTasks maxRetries oracle keyword i bs).map (fun o => o.getD []))
      ∧ (((batchTasks maxRetries oracle keyword i bs).map (fun o => o.getD [])).flatten).length
          = bs.flatten.length := by
  intro bs
  induction bs with
  | nil => intro i; exact ⟨rfl, rfl⟩
  | cons b rest ih =>
    intro i
    obtain ⟨l, hl, hlen⟩ := analyze_batch_some maxRetries (oracle i) b keyword h
    obtain ⟨ihseq, ihlen⟩ := ih (i + 1)
    constructor
    · simp only [batchTasks, hl, sequenceResults, ihseq, List.map_cons, Option.getD_some]
    · simp only [batchTasks, hl, List.map_cons, Option.getD_some, List.flatten_cons,
        List.length_append, hlen, ihlen]

/-! ## Helper lemmas: detail enrichment loop -/

theorem timeCheck_batch (c : Int) (al : List Int) (l : Int) (t : Option Int) (s : DetState) :
    (timeCheck c al l t s).state.batch = s.batch := by
  unfold timeCheck
  rcases t with _ | tv
  · rfl
  · dsimp only
    split <;> [skip; rfl]
    split <;> rfl

theorem timeCheck_store (c : Int) (al : List Int) (l : Int) (t : Option Int) (s : DetState) :
    (timeCheck c al l t s).state.store = s.store := by
  unfold timeCheck
  rcases t with _ | tv
  · rfl
  · dsimp only
    split <;> [skip; rfl]
    split <;> rfl

theorem timeCheck_appended (c : Int) (al : List Int) (l : Int) (t : Option Int) (s : DetState) :
    (timeCheck c al l t s).state.appended = s.appended := by
  unfold timeCheck
  rcases t with _ | tv
  · rfl
  · dsimp only
    split <;> [skip; rfl]
    split <;> rfl

theorem timeCheck_not_fired (c : Int) (al : List Int) (l : Int) (t : Option Int)
    (s : DetState) (h : s.cnt = 0) : (timeCheck c al l t s).fired = false := by
  unfold timeCheck
  rcases t with _ | tv
  · rfl
  · dsimp only
    split
    · rw [if_neg (by omega)]
    · rfl

theorem flushIfFull_inv (s : DetState) (store0 : List DetailRecord)
    (h : s.store ++ s.batch = store0 ++ s.appended) :
    (flushIfFull s).store ++ (flushIfFull s).batch = store0 ++ (flushIfFull s).appended := by
  unfold flushIfFull save_to_excel
  split
  · simpa using h
  · exact h

theorem appendRecord_inv (s : DetState) (r : DetailRecord) (store0 : List DetailRecord)
    (h : s.store ++ s.batch = store0 ++ s.appended) :
    (appendRecord s r).store ++ (appendRecord s r).batch
      = store0 ++ (appendRecord s r).appended := by
  simp only [appendRecord]
  rw [← List.append_assoc, h, List.append_assoc]

theorem timeCheck_inv (c : Int) (al : List Int) (l : Int) (t : Option Int) (s : DetState)
    (store0 : List DetailRecord) (h : s.store ++ s.batch = store0 ++ s.appended) :
    (timeCheck c al l t s).state.store ++ (timeCheck c al l t s).state.batch
      = store0 ++ (timeCheck c al l t s).state.appended := by
  rw [timeCheck_store, timeCheck_batch, timeCheck_appended]
  exact h

theorem stepItem_inv (e : List (Nat × Option Int)) (c : Int) (al : List Int)
    (it : ItemStep) (s : DetState) (store0 : List DetailRecord)
    (h : s.store ++ s.batch = store0 ++ s.appended) :
    (stepItem e c al it s).1.store ++ (stepItem e c al it s).1.batch
      = store0 ++ (stepItem e c al it s).1.appended := by
  unfold stepItem
  by_cases hk : it.hasKeys = false
  · simp only [if_pos hk]
    exact h
  · simp only [if_neg hk]
    cases hl : lookupExisting e it.uid with
    | some st =>
      dsimp only
      have h1 := appendRecord_inv s ⟨it.uid, "cached", st⟩ store0 h
      have h2 := timeCheck_inv c al it.label st _ store0 h1
      split
      · exact h2
      · exact flushIfFull_inv _ store0 h2
    | none =>
      dsimp only
      have h1 := timeCheck_inv c al it.label it.rowTime s store0 h
      split
      · exact h1
      · cases it.fetch with
        | none =>
          dsimp only
          split <;> exact h1
        | some detTime =>
          dsimp only
          split
          · split <;> exact h1
          · have h2 := appendRecord_inv (timeCheck c al it.label it.rowTime s).state
              ⟨it.uid, "success", detTime⟩ store0 h1
            have h3 := timeCheck_inv c al it.label detTime _ store0 h2
            split
            · exact h3
            · split <;> exact flushIfFull_inv _ store0 h3

theorem stepItem_no_abort (e : List (Nat × Option Int)) (c : Int) (al : List Int)
    (it : ItemStep) (s : DetState) (hsf : it.sleepFatal = false) :
    (stepItem e c al it s).2.2 ≠ LoopCtl.abort := by
  unfold stepItem
  by_cases hk : it.hasKeys = false
  · simp [hk]
  · simp only [if_neg hk]
    cases hl : lookupExisting e it.uid with
    | some st =>
      dsimp only
      split <;> simp
    | none =>
      dsimp only
      split
      · simp
      · cases it.fetch with
        | none =>
          dsimp only
          rw [if_neg (by simp [hsf])]
          simp
        | some detTime =>
          dsimp only
          split
          · rw [if_neg (by simp [hsf])]
            simp
          · split
            · simp
            · rw [if_neg (by simp [hsf])]
              simp

theorem runLoopAux_flush (e : List (Nat × Option Int)) (c : Int) (al : List Int)
    (store0 : List DetailRecord) :
    ∀ (items : List ItemStep) (s : DetState) (acc : List ItemSummary),
      (∀ it ∈ items, it.sleepFatal = false) →
      s.store ++ s.batch = store0 ++ s.appended →
      (runLoopAux e c al items s acc).aborted = false
      ∧ (runLoopAux e c al items s acc).batchLost = []
      ∧ (runLoopAux e c al items s acc).store
          = store0 ++ (runLoopAux e c al items s acc).appended := by
  intro items
  induction items with
  | nil =>
    intro s acc _ hP
    refine ⟨rfl, rfl, ?_⟩
    simpa [runLoopAux, save_to_excel] using hP
  | cons it rest ih =>
    intro s acc hsf hP
    have hstep := stepItem_inv e c al it s store0 hP
    simp only [runLoopAux]
    cases hctl : (stepItem e c al it s).2.2 with
    | next =>
      exact ih (stepItem e c al it s).1 (acc ++ (stepItem e c al it s).2.1.toList)
        (fun x hx => hsf x (List.mem_cons_of_mem it hx)) hstep
    | brk =>
      refine ⟨rfl, rfl, ?_⟩
      simpa [save_to_excel] using hstep
    | abort =>
      exact absurd hctl (stepItem_no_abort e c al it s (hsf it (List.mem_cons_self it rest)))

theorem flushIfFull_small (s : DetState) (h : s.batch.length < 5) : flushIfFull s = s := by
  unfold flushIfFull
  rw [if_neg (by omega)]

theorem runLoopAux_cons_next (e : List (Nat × Option Int)) (c : Int) (al : List Int)
    (it : ItemStep) (rest : List ItemStep) (s s2 : DetState) (osum : Option ItemSummary)
    (acc : List ItemSummary) (h : stepItem e c al it s = ⟨s2, osum, .next⟩) :
    runLoopAux e c al (it :: rest) s acc = runLoopAux e c al rest s2 (acc ++ osum.toList) := by
  simp only [runLoopAux, h]

theorem runLoopAux_cons_brk (e : List (Nat × Option Int)) (c : Int) (al : List Int)
    (it : ItemStep) (rest : List ItemStep) (s s2 : DetState) (osum : Option ItemSummary)
    (acc : List ItemSummary) (h : stepItem e c al it s = ⟨s2, osum, .brk⟩) :
    runLoopAux e c al (it :: rest) s acc
      = ⟨save_to_excel s2.batch s2.store, [], s2.appended, s2.unnecessary, s2.failed,
         acc ++ osum.toList, false⟩ := by
  simp only [runLoopAux, h]

theorem stepItem_fresh_ge (c : Int) (al : List Int) (l : Int) (u : Nat) (t : Int)
    (s : DetState) (h : ¬ (t < c)) (hb : s.batch.length + 1 < 5) :
    stepItem [] c al ⟨l, true, u, none, some (some t), false, false⟩ s
      = ⟨{ s with
             cnt := 0
             batch := s.batch ++ [⟨u, "success", some t⟩]
             appended := s.appended ++ [⟨u, "success", some t⟩] },
         some ⟨u, l, false, 1, true, some "success"⟩, .next⟩ := by
  have hl : lookupExisting ([] : List (Nat × Option Int)) u = none := rfl
  unfold stepItem
  dsimp only
  rw [hl]
  unfold timeCheck appendRecord
  dsimp only
  rw [if_neg h]
  dsimp only
  rw [flushIfFull_small _ (by simp only [List.length_append, List.length_cons, List.length_nil]; omega)]
  simp

theorem stepItem_fresh_lt_nofire (c : Int) (al : List Int) (l : Int) (u : Nat) (t : Int)
    (s : DetState) (h : t < c) (hcnt : s.cnt + 1 < 2) (hb : s.batch.length + 1 < 5) :
    stepItem [] c al ⟨l, true, u, none, some (some t), false, false⟩ s
      = ⟨{ s with
             cnt := s.cnt + 1
             batch := s.batch ++ [⟨u, "success", some t⟩]
             appended := s.appended ++ [⟨u, "success", some t⟩] },
         some ⟨u, l, false, 1, true, some "success"⟩, .next⟩ := by
  have hl : lookupExisting ([] : List (Nat × Option Int)) u = none := rfl
  unfold stepItem
  dsimp only
  rw [hl]
  unfold timeCheck appendRecord
  dsimp only
  rw [if_pos h, if_neg (show ¬ (2 ≤ s.cnt + 1) by omega)]
  dsimp only
  rw [flushIfFull_small _ (by simp only [List.length_append, List.length_cons, List.length_nil]; omega)]
  simp

theorem stepItem_fresh_lt_fire (c : Int) (al : List Int) (l : Int) (u : Nat) (t : Int)
    (s : DetState) (h : t < c) (hcnt : 2 ≤ s.cnt + 1) :
    stepItem [] c al ⟨l, true, u, none, some (some t), false, false⟩ s
      = ⟨{ s with
             cnt := s.cnt + 1
             batch := s.batch ++ [⟨u, "success", some t⟩]
             appended := s.appended ++ [⟨u, "success", some t⟩]
             unnecessary := al.filter (fun x => l < x) },
         some ⟨u, l, false, 1, false, some "success"⟩, .brk⟩ := by
  have hl : lookupExisting ([] : List (Nat × Option Int)) u = none := rfl
  unfold stepItem
  dsimp only
  rw [hl]
  unfold timeCheck appendRecord
  dsimp only
  rw [if_pos h, if_pos hcnt]
  simp

/-! ## Helper lemmas: cache merge -/

theorem mem_dropDupKeepLast {x : CRow} : ∀ {l : List CRow}, x ∈ dropDupKeepLast l → x ∈ l := by
  intro l
  induction l with
  | nil => intro h; exact absurd h (List.not_mem_nil x)
  | cons r rs ih =>
    intro h
    by_cases ha : rs.any (fun y => y.uid == r.uid)
    · simp only [dropDupKeepLast, if_pos ha] at h
      exact List.mem_cons_of_mem r (ih h)
    · simp only [dropDupKeepLast, if_neg ha, List.mem_cons] at h
      rcases h with h | h
      · exact h ▸ List.mem_cons_self r rs
      · exact List.mem_cons_of_mem r (ih h)

theorem nodup_uids_dropDupKeepLast : ∀ l : List CRow, (uids (dropDupKeepLast l)).Nodup := by
  intro l
  induction l with
  | nil => exact List.nodup_nil
  | cons r rs ih =>
    by_cases ha : rs.any (fun y => y.uid == r.uid)
    · simpa only [dropDupKeepLast, if_pos ha] using ih
    · simp only [dropDupKeepLast, if_neg ha, uids, List.map_cons, List.nodup_cons]
      refine ⟨fun hmem => ?_, ih⟩
      obtain ⟨x, hx, hxe⟩ := List.exists_of_mem_map hmem
      have hxr : x ∈ rs := mem_dropDupKeepLast hx
      have : rs.any (fun y => y.uid == r.uid) := by
        refine List.any_eq_true.mpr ⟨x, hxr, ?_⟩
        simp [hxe]
      exact ha this

theorem findRowLast_cons_some {r : CRow} {rs : List CRow} {u : Nat} {y : CRow}
    (h : findRowLast rs u = some y) : findRowLast (r :: rs) u = some y := by
  rw [findRowLast, h]

theorem findRowLast_cons_none {r : CRow} {rs : List CRow} {u : Nat}
    (h : findRowLast rs u = none) :
    findRowLast (r :: rs) u = if r.uid == u then some r else none := by
  rw [findRowLast, h]

theorem findRowLast_eq_none {l : List CRow} {u : Nat} (h : ∀ x ∈ l, x.uid ≠ u) :
    findRowLast l u = none := by
  induction l with
  | nil => rfl
  | cons r rs ih =>
    have hr : r.uid ≠ u := h r (List.mem_cons_self r rs)
    have hrest := ih (fun x hx => h x (List.mem_cons_of_mem r hx))
    rw [findRowLast_cons_none hrest]
    simp [hr]

theorem findRowLast_isSome {l : List CRow} {u : Nat} {x : CRow} (hx : x ∈ l)
    (hu : x.uid = u) : (findRowLast l u).isSome := by
  induction l with
  | nil => exact absurd hx (List.not_mem_nil x)
  | cons r rs ih =>
    cases hres : findRowLast rs u with
    | some y => rw [findRowLast_cons_some hres]; rfl
    | none =>
      rw [findRowLast_cons_none hres]
      rcases List.mem_cons.mp hx with h | h
      · subst h
        simp [beq_iff_eq.mpr hu]
      · have := ih h
        rw [hres] at this
        simp at this

theorem exists_uid_of_any {rs : List CRow} {v : Nat}
    (h : rs.any (fun y => y.uid == v)) : ∃ x ∈ rs, x.uid = v := by
  obtain ⟨x, hx, he⟩ := List.any_eq_true.mp h
  exact ⟨x, hx, beq_iff_eq.mp he⟩

theorem findRow_dropDupKeepLast : ∀ (l : List CRow) (u : Nat),
    findRow (dropDupKeepLast l) u = findRowLast l u := by
  intro l
  induction l with
  | nil => intro u; rfl
  | cons r rs ih =>
    intro u
    by_cases ha : rs.any (fun y => y.uid == r.uid)
    · simp only [dropDupKeepLast, if_pos ha, ih]
      cases hres : findRowLast rs u with
      | some y => rw [findRowLast_cons_some hres]
      | none =>
        rw [findRowLast_cons_none hres]
        by_cases hru : r.uid = u
        · exfalso
          obtain ⟨x, hx, hxu⟩ := exists_uid_of_any ha
          have := findRowLast_isSome (u := u) hx (by omega)
          rw [hres] at this
          simp at this
        · simp [hru]
    · simp only [dropDupKeepLast, if_neg ha]
      by_cases hru : r.uid = u
      · have hnone : findRowLast rs u = none := by
          refine findRowLast_eq_none (fun x hx hxu => ?_)
          exact ha (List.any_eq_true.mpr ⟨x, hx, beq_iff_eq.mpr (by omega)⟩)
        rw [findRowLast_cons_none hnone]
        simp only [findRow, List.find?_cons, beq_iff_eq.mpr hru]
        simp [hru]
      · rw [show findRow (r :: dropDupKeepLast rs) u = findRow (dropDupKeepLast rs) u by
          simp only [findRow, List.find?_cons, beq_eq_false_iff_ne.mpr hru]]
        rw [ih u]
        cases hres : findRowLast rs u with
        | some y => rw [findRowLast_cons_some hres]
        | none =>
          rw [findRowLast_cons_none hres]
          simp [hru]

theorem findRowLast_append (l₁ l₂ : List CRow) (u : Nat) :
    findRowLast (l₁ ++ l₂) u
      = match findRowLast l₂ u with
        | some x => some x
        | none => findRowLast l₁ u := by
  induction l₁ with
  | nil =>
    simp only [List.nil_append]
    cases findRowLast l₂ u <;> rfl
  | cons r rs ih =>
    rw [List.cons_append]
    cases h2 : findRowLast l₂ u with
    | some y =>
      have hmid : findRowLast (rs ++ l₂) u = some y := by rw [ih, h2]
      rw [findRowLast_cons_some hmid]
    | none =>
      cases hrs : findRowLast rs u with
      | some y =>
        have hmid : findRowLast (rs ++ l₂) u = some y := by rw [ih, h2]; exact hrs
        rw [findRowLast_cons_some hmid]
        exact (findRowLast_cons_some hrs).symm
      | none =>
        have hmid : findRowLast (rs ++ l₂) u = none := by rw [ih, h2]; exact hrs
        rw [findRowLast_cons_none hmid]
        exact (findRowLast_cons_none hrs).symm

theorem findRowLast_self {l : List CRow} {r : CRow} (hn : (uids l).Nodup) (hr : r ∈ l) :
    findRowLast l r.uid = some r := by
  induction l with
  | nil => exact absurd hr (List.not_mem_nil r)
  | cons x xs ih =>
    simp only [uids, List.map_cons, List.nodup_cons] at hn
    rcases List.mem_cons.mp hr with h | h
    · subst h
      have hnone : findRowLast xs r.uid = none := by
        refine findRowLast_eq_none (fun y hy hyu => ?_)
        exact hn.1 (hyu ▸ List.mem_map_of_mem (fun z => z.uid) hy)
      rw [findRowLast_cons_none hnone]
      simp
    · exact findRowLast_cons_some (ih hn.2 h)

/-! ## Claim theorems -/

/-- Claim C9: if the texts list is empty or the keyword is the empty
string, analyze_batch returns exactly len(texts) results, each with
relevance score 0.0 and an empty explanation, and performs no call to
the external classification service. -/
theorem C9_empty_input_no_call (maxRetries : Nat) (oracle : Nat → Option (List ClassResult))
    (texts : List String) (keyword : String) (h : texts = [] ∨ keyword = "") :
    analyze_batch maxRetries oracle texts keyword
      = (some (List.replicate texts.length zeroResult), 0) := by
  rcases h with h | h
  · subst h
    rfl
  · subst h
    simp [analyze_batch]

/-- Witness for C9 at texts equal to a one-element list and the empty
keyword. -/
theorem C9_empty_input_no_call_witness :
    ((["hello"] : List String) = [] ∨ "" = "")
    ∧ analyze_batch 3 (fun _ => none) ["hello"] ""
        = (some (List.replicate (["hello"] : List String).length zeroResult), 0) :=
  ⟨Or.inr rfl, C9_empty_input_no_call 3 (fun _ => none) ["hello"] "" (Or.inr rfl)⟩

/-- Claim C5: for every input list texts, keyword, positive batch size
and any per-batch service behaviour (so in particular any completion
order), analyze_contents returns a list whose length equals len(texts)
and which is the concatenation, in submission order, of the per-chunk
results of the consecutive chunks of batch_size. -/
theorem C5_order_preserved (maxRetries batchSize : Nat)
    (oracle : Nat → Nat → Option (List ClassResult)) (texts : List String) (keyword : String)
    (hr : 1 ≤ maxRetries) (hb : 1 ≤ batchSize) :
    ∃ rs, analyze_contents maxRetries batchSize oracle texts keyword = some rs
      ∧ rs.length = texts.length
      ∧ rs = ((batchTasks maxRetries oracle keyword 0 (chunkList texts batchSize)).map
            (fun o => o.getD [])).flatten := by
  obtain ⟨hseq, hlen⟩ :=
    batchTasks_sequence maxRetries oracle keyword hr (chunkList texts batchSize) 0
  have hl : (((batchTasks maxRetries oracle keyword 0 (chunkList texts batchSize)).map
      (fun o => o.getD [])).flatten).length = texts.length := by
    rw [hlen, chunkList_flatten texts batchSize hb]
  refine ⟨_, ?_, hl, rfl⟩
  unfold analyze_contents
  dsimp only
  rw [hseq]
  dsimp only
  rw [← hl, List.take_length]

/-- Witness for C5 at three texts, batch size two and an oracle whose
first batch fails every attempt. -/
theorem C5_order_preserved_witness :
    1 ≤ 3 ∧ 1 ≤ 2
    ∧ ∃ rs, analyze_contents 3 2 (fun _ _ => none) ["a", "b", "c"] "kw" = some rs
        ∧ rs.length = (["a", "b", "c"] : List String).length
        ∧ rs = ((batchTasks 3 (fun _ _ => none) "kw" 0
              (chunkList ["a", "b", "c"] 2)).map (fun o => o.getD [])).flatten :=
  ⟨by decide, by decide,
    C5_order_preserved 3 2 (fun _ _ => none) ["a", "b", "c"] "kw" (by decide) (by decide)⟩

/-- Claim C6: for keyed cached and fresh datasets that both carry the
identifier column, the cache merge has exactly one row per identifier;
an identifier present in both inputs keeps the fresh row, and an
identifier present in only one input keeps that input row. -/
theorem C6_merge_dedup_last_wins (nr cr : List CRow)
    (hn : (uids nr).Nodup) (hc : (uids cr).Nodup) :
    (uids (merge_with_cache ⟨true, nr⟩ ⟨true, cr⟩).rows).Nodup
    ∧ (∀ r ∈ nr, findRow (merge_with_cache ⟨true, nr⟩ ⟨true, cr⟩).rows r.uid = some r)
    ∧ (∀ r ∈ cr, r.uid ∉ uids nr →
        findRow (merge_with_cache ⟨true, nr⟩ ⟨true, cr⟩).rows r.uid = some r) := by
  have hm : merge_with_cache ⟨true, nr⟩ ⟨true, cr⟩ = ⟨true, dropDupKeepLast (cr ++ nr)⟩ := by
    simp [merge_with_cache]
  rw [hm]
  refine ⟨nodup_uids_dropDupKeepLast _, fun r hr => ?_, fun r hr hnot => ?_⟩
  · rw [findRow_dropDupKeepLast, findRowLast_append, findRowLast_self hn hr]
  · have hnone : findRowLast nr r.uid = none :=
      findRowLast_eq_none (fun x hx hxu =>
        hnot (hxu ▸ List.mem_map_of_mem (fun z => z.uid) hx))
    rw [findRow_dropDupKeepLast, findRowLast_append, hnone, findRowLast_self hc hr]

/-- Witness for C6: identifier 1 cached with score 10 and fresh with
score 90 resolves to the fresh row. -/
theorem C6_merge_dedup_last_wins_witness :
    ((uids [⟨1, 90⟩]).Nodup ∧ (uids [⟨1, 10⟩, ⟨2, 50⟩]).Nodup)
    ∧ findRow (merge_with_cache ⟨true, [⟨1, 90⟩]⟩ ⟨true, [⟨1, 10⟩, ⟨2, 50⟩]⟩).rows
        (⟨1, 90⟩ : CRow).uid = some ⟨1, 90⟩ :=
  ⟨⟨by decide, by decide⟩,
    (C6_merge_dedup_last_wins [⟨1, 90⟩] [⟨1, 10⟩, ⟨2, 50⟩] (by decide) (by decide)).2.1
      ⟨1, 90⟩ (by decide)⟩

/-- Claim C10: when the raw dataset or the cached classified dataset
lacks the UID column, the cache path degrades silently: every raw row
is re-classified and the merge returns only the newly classified
dataset, dropping all cached rows from the persisted output. -/
theorem C10_missing_uid_degrades (oracle : CRow → Rat) (df cached : DFrame)
    (h : df.hasUID = false ∨ cached.hasUID = false) :
    analyze_excel_model oracle df (some cached)
      = .analyzed df.rows ⟨df.hasUID, classifyRows oracle df.rows⟩ := by
  unfold analyze_excel_model merge_with_cache
  rcases h with h | h <;> simp [h]

/-- Witness for C10 at a raw frame without UID column and a cached
frame with one. -/
theorem C10_missing_uid_degrades_witness :
    ((⟨false, [⟨1, 0⟩]⟩ : DFrame).hasUID = false ∨ (⟨true, [⟨1, 10⟩]⟩ : DFrame).hasUID = false)
    ∧ analyze_excel_model (fun _ => 50) ⟨false, [⟨1, 0⟩]⟩ (some ⟨true, [⟨1, 10⟩]⟩)
        = .analyzed (⟨false, [⟨1, 0⟩]⟩ : DFrame).rows
            ⟨(⟨false, [⟨1, 0⟩]⟩ : DFrame).hasUID,
              classifyRows (fun _ => 50) (⟨false, [⟨1, 0⟩]⟩ : DFrame).rows⟩ :=
  ⟨Or.inl rfl,
    C10_missing_uid_degrades (fun _ => 50) ⟨false, [⟨1, 0⟩]⟩ ⟨true, [⟨1, 10⟩]⟩ (Or.inl rfl)⟩

/-- Counterexample to claim C3 as stated: when the detail enrichment
stage fails (get_note_details returns None), analyze_attraction still
returns success = true, because lines 559-569 only guard the field
assignments and then set success unconditionally. -/
theorem C3_counterexample :
    analyze_attraction (some "s.xlsx") (fun _ => some "a.xlsx") (fun _ => some (10, 5))
        (fun _ => none) (fun _ => none)
      = ⟨some "s.xlsx", some "a.xlsx", none, true, 10, 5, 0⟩ := by
  decide

/-- Claim C3 amended: analyze_attraction never lets an exception reach
its caller (the outer handler converts it into the results record built
so far); a search-stage exception or empty search result yields the
initial failure record, a relevance-stage failure yields a failure
record with the search file populated, but a detail-stage failure does
not force failure: the returned record then has success = true with the
detail file left unset. -/
theorem C3_orchestrator_amended (relRes : String → Option String)
    (counts : String → Option (Nat × Nat)) (detailRes : String → Option String)
    (detailCount : String → Option Nat) :
    (∀ sr r, analyze_attraction_body sr relRes counts detailRes detailCount = .error r →
        analyze_attraction sr relRes counts detailRes detailCount = r)
    ∧ analyze_attraction none relRes counts detailRes detailCount = initResults
    ∧ analyze_attraction (some "") relRes counts detailRes detailCount = initResults
    ∧ (∀ sf, sf ≠ "" → relRes sf = none →
        analyze_attraction (some sf) relRes counts detailRes detailCount
          = { initResults with searchFile := some sf })
    ∧ (∀ sf af, sf ≠ "" → relRes sf = some af → detailRes af = none →
        (analyze_attraction (some sf) relRes counts detailRes detailCount).success = true
        ∧ (analyze_attraction (some sf) relRes counts detailRes detailCount).detailFile
            = none) := by
  refine ⟨?_, rfl, by simp [analyze_attraction, analyze_attraction_body], ?_, ?_⟩
  · intro sr r h
    unfold analyze_attraction
    rw [h]
  · intro sf hsf hrel
    unfold analyze_attraction analyze_attraction_body
    dsimp only
    rw [if_neg hsf, hrel]
  · intro sf af hsf hrel hdet
    unfold analyze_attraction analyze_attraction_body
    dsimp only
    rw [if_neg hsf, hrel]
    dsimp only
    rw [hdet]
    cases counts af <;> simp [initResults]

/-- Witness for C3 amended at a run whose relevance stage fails. -/
theorem C3_orchestrator_amended_witness :
    ("s" ≠ "" ∧ (fun (_ : String) => (none : Option String)) "s" = none)
    ∧ analyze_attraction (some "s") (fun _ => none) (fun _ => none) (fun _ => none)
        (fun _ => none)
      = { initResults with searchFile := some "s" } :=
  ⟨⟨by decide, rfl⟩,
    (C3_orchestrator_amended (fun _ => none) (fun _ => none) (fun _ => none)
        (fun _ => none)).2.2.2.1 "s" (by decide) rfl⟩

/-- Counterexample to claim C1 as stated: the consecutive-stale counter
is not updated exactly once per processed item.  A single fresh item
whose input row and fetched detail both carry a stale published_at is
counted twice (lines 361-386 before the fetch and 412-440 after it),
so the early stop fires after one item and the second item is marked
unnecessary without any processing. -/
theorem C1_counterexample :
    ((runDetailLoop [] 1000 []
        [⟨0, true, 5, some 995, some (some 995), false, false⟩,
         ⟨1, true, 6, none, some (some 1500), false, false⟩]).summaries.map
        (fun s => s.updates) = [2])
    ∧ (runDetailLoop [] 1000 []
        [⟨0, true, 5, some 995, some (some 995), false, false⟩,
         ⟨1, true, 6, none, some (some 1500), false, false⟩]).unnecessary = [1] := by
  decide

/-- Claim C1 amended: the counter is updated once per published_at
resolution, and a fresh item can resolve twice (input row, then
fetched detail).  When every item resolves exactly once - here fresh
items whose rows carry no parseable published_at, so only the fetched
detail is checked - the stated scenario holds: with items 0-2 dated at
or after the cutoff and items 3-4 before it, each item updates the
counter exactly once, processing stops after item 4, the run does not
abort, and exactly the remaining items are marked unnecessary. -/
theorem C1_early_stop_amended (cutoff a0 a1 a2 b3 b4 : Int) (u0 u1 u2 u3 u4 : Nat)
    (tail : List ItemStep)
    (h0 : cutoff ≤ a0) (h01 : a1 ≤ a0) (h1 : cutoff ≤ a1) (h12 : a2 ≤ a1)
    (h2 : cutoff ≤ a2) (h3 : b3 < cutoff) (h43 : b4 ≤ b3) (h4 : b4 < cutoff)
    (htail : ∀ it ∈ tail, (4 : Int) < it.label) :
    ((runDetailLoop [] cutoff []
        ([⟨0, true, u0, none, some (some a0), false, false⟩,
          ⟨1, true, u1, none, some (some a1), false, false⟩,
          ⟨2, true, u2, none, some (some a2), false, false⟩,
          ⟨3, true, u3, none, some (some b3), false, false⟩,
          ⟨4, true, u4, none, some (some b4), false, false⟩] ++ tail)).summaries.map
        (fun s => (s.uid, s.updates)) = [(u0, 1), (u1, 1), (u2, 1), (u3, 1), (u4, 1)])
    ∧ (runDetailLoop [] cutoff []
        ([⟨0, true, u0, none, some (some a0), false, false⟩,
          ⟨1, true, u1, none, some (some a1), false, false⟩,
          ⟨2, true, u2, none, some (some a2), false, false⟩,
          ⟨3, true, u3, none, some (some b3), false, false⟩,
          ⟨4, true, u4, none, some (some b4), false, false⟩] ++ tail)).unnecessary
        = tail.map (fun it => it.label)
    ∧ (runDetailLoop [] cutoff []
        ([⟨0, true, u0, none, some (some a0), false, false⟩,
          ⟨1, true, u1, none, some (some a1), false, false⟩,
          ⟨2, true, u2, none, some (some a2), false, false⟩,
          ⟨3, true, u3, none, some (some b3), false, false⟩,
          ⟨4, true, u4, none, some (some b4), false, false⟩] ++ tail)).aborted = false := by
  unfold runDetailLoop initState
  simp only [List.map_append, List.map_cons, List.map_nil, List.cons_append, List.nil_append]
  rw [runLoopAux_cons_next _ _ _ _ _ _ _ _ _
    (stepItem_fresh_ge cutoff _ 0 u0 a0 ⟨0, [], [], [], [], []⟩ (not_lt.mpr h0) (by norm_num))]
  simp only [List.nil_append, List.append_nil, List.cons_append, Option.toList_some]
  rw [runLoopAux_cons_next _ _ _ _ _ _ _ _ _
    (stepItem_fresh_ge cutoff _ 1 u1 a1
      ⟨0, [⟨u0, "success", some a0⟩], [], [⟨u0, "success", some a0⟩], [], []⟩
      (not_lt.mpr h1) (by norm_num))]
  simp only [List.nil_append, List.append_nil, List.cons_append, Option.toList_some]
  rw [runLoopAux_cons_next _ _ _ _ _ _ _ _ _
    (stepItem_fresh_ge cutoff _ 2 u2 a2
      ⟨0, [⟨u0, "success", some a0⟩, ⟨u1, "success", some a1⟩], [],
       [⟨u0, "success", some a0⟩, ⟨u1, "success", some a1⟩], [], []⟩
      (not_lt.mpr h2) (by norm_num))]
  simp only [List.nil_append, List.append_nil, List.cons_append, Option.toList_some]
  rw [runLoopAux_cons_next _ _ _ _ _ _ _ _ _
    (stepItem_fresh_lt_nofire cutoff _ 3 u3 b3
      ⟨0, [⟨u0, "success", some a0⟩, ⟨u1, "success", some a1⟩, ⟨u2, "success", some a2⟩], [],
       [⟨u0, "success", some a0⟩, ⟨u1, "success", some a1⟩, ⟨u2, "success", some a2⟩], [], []⟩
      h3 (by norm_num) (by norm_num))]
  simp only [List.nil_append, List.append_nil, List.cons_append, Option.toList_some]
  rw [runLoopAux_cons_brk _ _ _ _ _ _ _ _ _
    (stepItem_fresh_lt_fire cutoff _ 4 u4 b4
      ⟨0 + 1,
       [⟨u0, "success", some a0⟩, ⟨u1, "success", some a1⟩, ⟨u2, "success", some a2⟩,
        ⟨u3, "success", some b3⟩], [],
       [⟨u0, "success", some a0⟩, ⟨u1, "success", some a1⟩, ⟨u2, "success", some a2⟩,
        ⟨u3, "success", some b3⟩], [], []⟩
      h4 (by norm_num))]
  refine ⟨by simp, ?_, rfl⟩
  dsimp only
  have hB : List.filter (fun x => decide ((4 : Int) < x)) (tail.map (fun it => it.label))
      = tail.map (fun it => it.label) := by
    refine List.filter_eq_self.mpr ?_
    intro a ha
    obtain ⟨it, hit, rfl⟩ := List.mem_map.mp ha
    exact decide_eq_true (htail it hit)
  rw [show ((0 : Int) :: 1 :: 2 :: 3 :: 4 :: tail.map (fun it => it.label))
      = [0, 1, 2, 3, 4] ++ tail.map (fun it => it.label) from rfl]
  rw [List.filter_append, hB]
  norm_num

/-- Witness for C1 amended at cutoff 1000, three fresh items dated
1500, 1400, 1300, two stale items dated 900 and 800 and one further
item in the tail. -/
theorem C1_early_stop_amended_witness :
    ((1000 : Int) ≤ 1500 ∧ (1400 : Int) ≤ 1500 ∧ (1000 : Int) ≤ 1400 ∧ (1300 : Int) ≤ 1400
      ∧ (1000 : Int) ≤ 1300 ∧ (900 : Int) < 1000 ∧ (800 : Int) ≤ 900 ∧ (800 : Int) < 1000
      ∧ (∀ it ∈ [(⟨5, true, 25, none, some (some 700), false, false⟩ : ItemStep)],
          (4 : Int) < it.label))
    ∧ (((runDetailLoop [] 1000 []
        ([⟨0, true, 20, none, some (some 1500), false, false⟩,
          ⟨1, true, 21, none, some (some 1400), false, false⟩,
          ⟨2, true, 22, none, some (some 1300), false, false⟩,
          ⟨3, true, 23, none, some (some 900), false, false⟩,
          ⟨4, true, 24, none, some (some 800), false, false⟩]
          ++ [⟨5, true, 25, none, some (some 700), false, false⟩])).summaries.map
        (fun s => (s.uid, s.updates)) = [(20, 1), (21, 1), (22, 1), (23, 1), (24, 1)])
    ∧ (runDetailLoop [] 1000 []
        ([⟨0, true, 20, none, some (some 1500), false, false⟩,
          ⟨1, true, 21, none, some (some 1400), false, false⟩,
          ⟨2, true, 22, none, some (some 1300), false, false⟩,
          ⟨3, true, 23, none, some (some 900), false, false⟩,
          ⟨4, true, 24, none, some (some 800), false, false⟩]
          ++ [⟨5, true, 25, none, some (some 700), false, false⟩])).unnecessary
        = [(⟨5, true, 25, none, some (some 700), false, false⟩ : ItemStep)].map
            (fun it => it.label)
    ∧ (runDetailLoop [] 1000 []
        ([⟨0, true, 20, none, some (some 1500), false, false⟩,
          ⟨1, true, 21, none, some (some 1400), false, false⟩,
          ⟨2, true, 22, none, some (some 1300), false, false⟩,
          ⟨3, true, 23, none, some (some 900), false, false⟩,
          ⟨4, true, 24, none, some (some 800), false, false⟩]
          ++ [⟨5, true, 25, none, some (some 700), false, false⟩])).aborted = false) :=
  ⟨⟨by decide, by decide, by decide, by decide, by decide, by decide, by decide, by decide,
     by decide⟩,
   C1_early_stop_amended 1000 1500 1400 1300 900 800 20 21 22 23 24
     [⟨5, true, 25, none, some (some 700), false, false⟩] (by decide) (by decide) (by decide)
     (by decide) (by decide) (by decide) (by decide) (by decide) (by decide)⟩

/-- Claim C2, evaluated at the failing input: three cached relevant
rows whose original index labels are 0, 1 and 2 with published_at
1010, 995 and 997 against cutoff 1000, iterated in descending time
order 0, 2, 1.  The early stop fires at the third iterated row
(label 1) and the code marks exactly the rows with index label
greater than 1, that is the already-processed row with label 2,
while the set of not-yet-processed rows is empty. -/
theorem C2_marks_by_label_not_position :
    ((runDetailLoop
        (detailsIndex [⟨10, "success", some 1010⟩, ⟨12, "success", some 997⟩,
          ⟨11, "success", some 995⟩]) 1000
        [⟨10, "success", some 1010⟩, ⟨12, "success", some 997⟩, ⟨11, "success", some 995⟩]
        [⟨0, true, 10, none, none, false, false⟩, ⟨2, true, 12, none, none, false, false⟩,
         ⟨1, true, 11, none, none, false, false⟩]).summaries.map (fun s => s.label)
      = [0, 2, 1])
    ∧ (runDetailLoop
        (detailsIndex [⟨10, "success", some 1010⟩, ⟨12, "success", some 997⟩,
          ⟨11, "success", some 995⟩]) 1000
        [⟨10, "success", some 1010⟩, ⟨12, "success", some 997⟩, ⟨11, "success", some 995⟩]
        [⟨0, true, 10, none, none, false, false⟩, ⟨2, true, 12, none, none, false, false⟩,
         ⟨1, true, 11, none, none, false, false⟩]).unnecessary = [2] := by
  decide

/-- Counterexample to claim C4 as stated: a fatal exception at the
inter-item delay (outside the per-item handler) reaches the outer
handler at line 506, which returns None without flushing, so the
freshly fetched record pending in the batch is never persisted. -/
theorem C4_counterexample :
    (runDetailLoop [] 1000 [] [⟨0, true, 5, none, some (some 2000), false, true⟩]).store = []
    ∧ (runDetailLoop [] 1000 [] [⟨0, true, 5, none, some (some 2000), false, true⟩]).batchLost
        = [⟨5, "success", some 2000⟩]
    ∧ (runDetailLoop [] 1000 []
        [⟨0, true, 5, none, some (some 2000), false, true⟩]).aborted = true := by
  decide

/-- Claim C4 amended: when no fatal exception is raised outside the
per-item handler, the loop - whether it completes normally or stops
early - flushes every pending record, so the final detail store is the
initial store followed by every record accumulated during the run; on
a fatal exception the outer handler returns without flushing. -/
theorem C4_flush_amended (existing : List (Nat × Option Int)) (cutoff : Int)
    (store0 : List DetailRecord) (items : List ItemStep)
    (h : ∀ it ∈ items, it.sleepFatal = false) :
    (runDetailLoop existing cutoff store0 items).aborted = false
    ∧ (runDetailLoop existing cutoff store0 items).batchLost = []
    ∧ (runDetailLoop existing cutoff store0 items).store
        = store0 ++ (runDetailLoop existing cutoff store0 items).appended := by
  unfold runDetailLoop
  exact runLoopAux_flush existing cutoff (items.map (fun it => it.label)) store0 items
    (initState store0) [] h (by simp [initState])

/-- Witness for C4 amended at a one-item run with no fatal
exception. -/
theorem C4_flush_amended_witness :
    (∀ it ∈ [(⟨0, true, 5, none, some (some 2000), false, false⟩ : ItemStep)],
        it.sleepFatal = false)
    ∧ ((runDetailLoop [] 1000 []
          [⟨0, true, 5, none, some (some 2000), false, false⟩]).aborted = false
      ∧ (runDetailLoop [] 1000 []
          [⟨0, true, 5, none, some (some 2000), false, false⟩]).batchLost = []
      ∧ (runDetailLoop [] 1000 []
          [⟨0, true, 5, none, some (some 2000), false, false⟩]).store
          = [] ++ (runDetailLoop [] 1000 []
              [⟨0, true, 5, none, some (some 2000), false, false⟩]).appended) :=
  ⟨by decide,
   C4_flush_amended [] 1000 [] [⟨0, true, 5, none, some (some 2000), false, false⟩]
     (by decide)⟩

/-- Counterexample to claim C7 as stated: replaying one already-stored
item appends a second row for its identifier (with crawl status
cached), because save_to_excel concatenates without deduplicating by
identifier; the store then holds two rows for identifier 7. -/
theorem C7_counterexample :
    (runDetailLoop (detailsIndex [⟨7, "success", some 2000⟩]) 1000 [⟨7, "success", some 2000⟩]
        [⟨0, true, 7, none, none, false, false⟩]).store
      = [⟨7, "success", some 2000⟩, ⟨7, "cached", some 2000⟩]
    ∧ (runDetailLoop (detailsIndex [⟨7, "success", some 2000⟩]) 1000
        [⟨7, "success", some 2000⟩]
        [⟨0, true, 7, none, none, false, false⟩]).store.countP (fun x => x.uid == 7) = 2 := by
  decide

/-- Counterexample to claim C8 as stated: two successive cache-served
items are processed with no delay between them, because the cached
path leaves the loop body through the continue at line 359, before the
sleep at line 471. -/
theorem C8_counterexample :
    (runDetailLoop (detailsIndex [⟨7, "old", some 2000⟩, ⟨8, "old", some 2000⟩]) 1000
        [⟨7, "old", some 2000⟩, ⟨8, "old", some 2000⟩]
        [⟨0, true, 7, none, none, false, false⟩,
         ⟨1, true, 8, none, none, false, false⟩]).summaries.map
        (fun s => (s.fromCache, s.slept)) = [(true, false), (true, false)] := by
  decide


/-- Claim C7 amended: each append-merge writes the previous store rows
followed by the batch rows with no deduplication by identifier, so
replaying one already-stored item against its own store appends a
second row with crawl status cached for that identifier: the count of
rows for the identifier grows by one instead of staying at most one. -/
theorem C7_append_amended (cutoff : Int) (store0 : List DetailRecord) (l : Int) (u : Nat)
    (rt : Option Int) (fo : Option (Option Int)) (ff sf : Bool) (t : Option Int)
    (h : lookupExisting (detailsIndex store0) u = some t) :
    (runDetailLoop (detailsIndex store0) cutoff store0 [⟨l, true, u, rt, fo, ff, sf⟩]).store
      = store0 ++ [⟨u, "cached", t⟩]
    ∧ (runDetailLoop (detailsIndex store0) cutoff store0
        [⟨l, true, u, rt, fo, ff, sf⟩]).store.countP (fun x => x.uid == u)
      = store0.countP (fun x => x.uid == u) + 1 := by
  have hnf : (timeCheck cutoff [l] l t
      (appendRecord (initState store0) ⟨u, "cached", t⟩)).fired = false :=
    timeCheck_not_fired _ _ _ _ _ rfl
  have hstep : stepItem (detailsIndex store0) cutoff [l] ⟨l, true, u, rt, fo, ff, sf⟩
      (initState store0)
      = ⟨flushIfFull (timeCheck cutoff [l] l t
           (appendRecord (initState store0) ⟨u, "cached", t⟩)).state,
         some ⟨u, l, true, (timeCheck cutoff [l] l t
           (appendRecord (initState store0) ⟨u, "cached", t⟩)).updates, false, some "cached"⟩,
         .next⟩ := by
    unfold stepItem
    dsimp only
    rw [if_neg (show ¬ (true = false) by simp)]
    rw [h]
    dsimp only
    rw [if_neg (by rw [hnf]; simp)]
  have hbatch : (timeCheck cutoff [l] l t
      (appendRecord (initState store0) ⟨u, "cached", t⟩)).state.batch
      = [⟨u, "cached", t⟩] := by
    rw [timeCheck_batch]
    rfl
  have hsm : flushIfFull (timeCheck cutoff [l] l t
      (appendRecord (initState store0) ⟨u, "cached", t⟩)).state
      = (timeCheck cutoff [l] l t (appendRecord (initState store0) ⟨u, "cached", t⟩)).state :=
    flushIfFull_small _ (by rw [hbatch]; norm_num)
  have h1 : (runDetailLoop (detailsIndex store0) cutoff store0
      [⟨l, true, u, rt, fo, ff, sf⟩]).store = store0 ++ [⟨u, "cached", t⟩] := by
    unfold runDetailLoop
    simp only [List.map_cons, List.map_nil]
    rw [runLoopAux_cons_next _ _ _ _ _ _ _ _ _ hstep]
    rw [hsm]
    simp only [runLoopAux]
    unfold save_to_excel
    rw [timeCheck_store, hbatch]
    rfl
  refine ⟨h1, ?_⟩
  rw [h1, List.countP_append]
  simp [List.countP_cons]

/-- Witness for C7 amended at a store holding identifier 7. -/
theorem C7_append_amended_witness :
    (lookupExisting (detailsIndex [⟨7, "success", some 2000⟩]) 7 = some (some 2000))
    ∧ ((runDetailLoop (detailsIndex [⟨7, "success", some 2000⟩]) 1000
          [⟨7, "success", some 2000⟩] [⟨0, true, 7, none, none, false, false⟩]).store
        = [⟨7, "success", some 2000⟩] ++ [⟨7, "cached", some 2000⟩]
      ∧ (runDetailLoop (detailsIndex [⟨7, "success", some 2000⟩]) 1000
          [⟨7, "success", some 2000⟩]
          [⟨0, true, 7, none, none, false, false⟩]).store.countP (fun x => x.uid == 7)
        = ([(⟨7, "success", some 2000⟩ : DetailRecord)]).countP (fun x => x.uid == 7) + 1) :=
  ⟨by decide,
   C7_append_amended 1000 [⟨7, "success", some 2000⟩] 0 7 none none false false (some 2000)
     (by decide)⟩

/-- Claim C8 amended: the fixed inter-item delay runs after an item
exactly when the item took the fresh-fetch path and control proceeds
to the next row; items served from the persisted detail cache continue
to the next row without the delay, and no delay follows a break or a
fatal abort. -/
theorem C8_sleep_amended (existing : List (Nat × Option Int)) (cutoff : Int)
    (allLabels : List Int) (it : ItemStep) (s : DetState) (st2 : DetState)
    (summ : ItemSummary) (ctl : LoopCtl)
    (h : stepItem existing cutoff allLabels it s = ⟨st2, some summ, ctl⟩) :
    summ.slept = true ↔ (summ.fromCache = false ∧ ctl = LoopCtl.next) := by
  obtain ⟨lb, hk, u, rt, fo, ffl, sfl⟩ := it
  unfold stepItem at h
  dsimp only at h
  cases hk with
  | false => simp at h
  | true =>
    rw [if_neg (show ¬ (true = false) by simp)] at h
    cases hlook : lookupExisting existing u with
    | some st =>
      rw [hlook] at h
      dsimp only at h
      cases hf : (timeCheck cutoff allLabels lb st (appendRecord s ⟨u, "cached", st⟩)).fired with
      | true =>
        rw [if_pos hf] at h
        injection h with ha hbc
        injection hbc with hb hc
        injection hb with hsumm
        subst hsumm
        subst hc
        simp
      | false =>
        rw [if_neg (by rw [hf]; simp)] at h
        injection h with ha hbc
        injection hbc with hb hc
        injection hb with hsumm
        subst hsumm
        subst hc
        simp
    | none =>
      rw [hlook] at h
      dsimp only at h
      cases hf1 : (timeCheck cutoff allLabels lb rt s).fired with
      | true =>
        rw [if_pos hf1] at h
        injection h with ha hbc
        injection hbc with hb hc
        injection hb with hsumm
        subst hsumm
        subst hc
        simp
      | false =>
        rw [if_neg (by rw [hf1]; simp)] at h
        cases fo with
        | none =>
          dsimp only at h
          cases sfl with
          | true =>
            rw [if_pos rfl] at h
            injection h with ha hbc
            injection hbc with hb hc
            injection hb with hsumm
            subst hsumm
            subst hc
            simp
          | false =>
            rw [if_neg (show ¬ (false = true) by simp)] at h
            injection h with ha hbc
            injection hbc with hb hc
            injection hb with hsumm
            subst hsumm
            subst hc
            simp
        | some dt =>
          dsimp only at h
          cases ffl with
          | true =>
            rw [if_pos rfl] at h
            cases sfl with
            | true =>
              rw [if_pos rfl] at h
              injection h with ha hbc
              injection hbc with hb hc
              injection hb with hsumm
              subst hsumm
              subst hc
              simp
            | false =>
              rw [if_neg (show ¬ (false = true) by simp)] at h
              injection h with ha hbc
              injection hbc with hb hc
              injection hb with hsumm
              subst hsumm
              subst hc
              simp
          | false =>
            rw [if_neg (show ¬ (false = true) by simp)] at h
            cases hf2 : (timeCheck cutoff allLabels lb dt
                (appendRecord (timeCheck cutoff allLabels lb rt s).state
                  ⟨u, "success", dt⟩)).fired with
            | true =>
              rw [if_pos hf2] at h
              injection h with ha hbc
              injection hbc with hb hc
              injection hb with hsumm
              subst hsumm
              subst hc
              simp
            | false =>
              rw [if_neg (by rw [hf2]; simp)] at h
              cases sfl with
              | true =>
                rw [if_pos rfl] at h
                injection h with ha hbc
                injection hbc with hb hc
                injection hb with hsumm
                subst hsumm
                subst hc
                simp
              | false =>
                rw [if_neg (show ¬ (false = true) by simp)] at h
                injection h with ha hbc
                injection hbc with hb hc
                injection hb with hsumm
                subst hsumm
                subst hc
                simp

/-- Witness for C8 amended at a fresh item whose fetch fails. -/
theorem C8_sleep_amended_witness :
    (stepItem [] 0 [] ⟨0, true, 1, none, none, false, false⟩ (initState [])
      = ⟨{ initState [] with failed := [0] }, some ⟨1, 0, false, 0, true, none⟩,
         LoopCtl.next⟩)
    ∧ ((⟨1, 0, false, 0, true, none⟩ : ItemSummary).slept = true
      ↔ ((⟨1, 0, false, 0, true, none⟩ : ItemSummary).fromCache = false
         ∧ LoopCtl.next = LoopCtl.next)) :=
  ⟨by decide,
   C8_sleep_amended [] 0 [] ⟨0, true, 1, none, none, false, false⟩ (initState [])
     ({ initState [] with failed := [0] }) ⟨1, 0, false, 0, true, none⟩ LoopCtl.next
     (by decide)⟩
